import Mathlib

/-!
Verification development for `sqldict.py`: a dict-like facade (`SqlDict`)
over a serializing executor (`SqliteMultithread`) that funnels all SQL
requests through a single worker thread via a FIFO request queue.

The embedding below translates the program's components:

* the value codec `encode`/`decode` (pickle is external to the repository;
  the serializer itself is modelled from the spec's codec contract, while
  `encode`/`decode` mirror the source wrappers);
* the worker loop `SqliteMultithread.run` as a recursive function over the
  finite list of requests sitting in the queue, parametrised by an abstract
  storage engine (the worker never inspects SQL text beyond the two
  sentinel strings);
* the result-sink protocol of `select` / `select_one` (rows pushed by the
  worker, terminated by the `'--no more--'` sentinel);
* the table-level semantics of the exact SQL statements the `SqlDict`
  facade issues (point select, `REPLACE INTO`, `DELETE`, `COUNT(*)`,
  `MAX(ROWID)`), with the table as an association list of key/value rows;
* the facade's `close`/`commit` handle management.
-/

/-- Byte strings, as stored in the BLOB column. -/
abbrev Blob := List Nat

/-- Modelled from the spec: the value-codec collaborator ("`encode(value) ->
blob`, `decode(blob) -> value`; must round-trip any value the caller can
produce").  In the source the codec is cPickle, which is external to the
repository; the model's supported value domain is byte strings and integers. -/
inductive Value where
  | vstr : List Nat → Value
  | vint : Int → Value
deriving DecidableEq

/-- Modelled from the spec: `cPickle.dumps`, the serializer half of the
external codec.  Tag byte 0 marks a byte string, tag byte 1 an integer
(sign byte followed by magnitude). -/
def dumps : Value → Blob
  | Value.vstr s => 0 :: s
  | Value.vint n => if n < 0 then [1, 1, n.natAbs] else [1, 0, n.natAbs]

/-- Modelled from the spec: `cPickle.loads`, the parser half of the external
codec; returns `none` on a malformed blob (an unpickling error). -/
def loads : Blob → Option Value
  | 0 :: rest => some (Value.vstr rest)
  | [1, 0, m] => some (Value.vint m)
  | [1, 1, m] => some (Value.vint (-(m : Int)))
  | _ => none

/-- `encode(obj)` from the source: `sqlite3.Binary(dumps(obj, ...))`.
`sqlite3.Binary` wraps the pickled bytes without altering them, so in the
model it is the identity on the blob. -/
def encode (obj : Value) : Blob := dumps obj

/-- `decode(obj)` from the source: `loads(str(obj))`.  `str` on the stored
buffer returns its bytes unchanged, so in the model it is the identity. -/
def decode (obj : Blob) : Option Value := loads obj

/-- Statement parameter, as bound by the facade: a key string or a value blob. -/
inductive Param where
  | s : String → Param
  | b : Blob → Param
deriving DecidableEq

/-- Request, as enqueued on `SqliteMultithread.reqs` by `execute`, `commit`
and `close`: either one of the two sentinel strings `'--commit--'` /
`'--close--'`, or a SQL statement with its bound parameters and a flag
recording whether a result sink (`res` queue) is attached. -/
inductive Req where
  | close : Req
  | commit : Req
  | sql : String → List Param → Bool → Req
deriving DecidableEq

/-- Whether a request is the `'--close--'` sentinel. -/
def Req.isClose : Req → Bool
  | Req.close => true
  | _ => false

/-- Item travelling through a result sink (`res` queue): a produced row or
the `'--no more--'` terminal sentinel. -/
inductive SinkItem (ρ : Type) where
  | row : ρ → SinkItem ρ
  | sentinel : SinkItem ρ
deriving DecidableEq

/-- Contents pushed into a request's result sink by the worker
(`for rec in cursor: res.put(rec)` followed by `res.put('--no more--')`):
every produced row in engine order, then the terminal sentinel. -/
def sinkFill {ρ : Type} (rows : List ρ) : List (SinkItem ρ) :=
  rows.map SinkItem.row ++ [SinkItem.sentinel]

/-- Consumption loop of `SqliteMultithread.select`: pull items until the
sentinel, yielding the rows seen before it.  `none` means the sentinel never
arrives and the consumer would block forever. -/
def drain {ρ : Type} : List (SinkItem ρ) → Option (List ρ)
  | [] => none
  | SinkItem.sentinel :: _ => some []
  | SinkItem.row r :: rest => (drain rest).map (fun l => r :: l)

/-- Abstract storage engine as seen by the worker: `exec` runs one statement,
returning the updated engine state and the rows produced by the cursor;
`commit` commits.  The worker treats SQL text opaquely apart from the two
sentinel strings, so the engine is a parameter of the model. -/
structure Engine (σ ρ : Type) where
  exec : String → List Param → σ → σ × List ρ
  commit : σ → σ

/-- Observable action of the worker loop: a statement execution, a fill of
the current request's result sink, a connection commit, or the final
connection closing. -/
inductive Ev (ρ : Type) where
  | exec : String → List Param → Ev ρ
  | sink : List (SinkItem ρ) → Ev ρ
  | commit : Ev ρ
  | closeConn : Ev ρ
deriving DecidableEq

/-- Worker loop `SqliteMultithread.run`, run over the finite list of requests
currently in the queue, in enqueue order.  Returns the final engine state and
the list of events in the order they happen.  An exhausted list means the
worker is blocked on `reqs.get()` (still RUNNING, no close event); the
`'--close--'` sentinel breaks the loop and the connection is closed.  On an
ordinary request the statement is executed, the sink (if any) is filled with
the rows plus the sentinel, and in autocommit mode a commit follows. -/
def runWorker {σ ρ : Type} (E : Engine σ ρ) (autocommit : Bool) :
    List Req → σ → σ × List (Ev ρ)
  | [], s => (s, [])
  | Req.close :: _, s => (s, [Ev.closeConn])
  | Req.commit :: rest, s =>
      ((runWorker E autocommit rest (E.commit s)).1,
        Ev.commit :: (runWorker E autocommit rest (E.commit s)).2)
  | Req.sql q a withSink :: rest, s =>
      ((runWorker E autocommit rest
          (if autocommit then E.commit (E.exec q a s).1 else (E.exec q a s).1)).1,
        Ev.exec q a ::
          ((if withSink then [Ev.sink (sinkFill (E.exec q a s).2)] else []) ++
            (if autocommit then [Ev.commit] else []) ++
            (runWorker E autocommit rest
              (if autocommit then E.commit (E.exec q a s).1 else (E.exec q a s).1)).2))

/-- Projection of an event trace to the executed statements, in order. -/
def execTrace {ρ : Type} (evs : List (Ev ρ)) : List (String × List Param) :=
  evs.filterMap (fun e =>
    match e with
    | Ev.exec q a => some (q, a)
    | _ => none)

/-- Statement carried by a request, if it is not a sentinel. -/
def sqlOf : Req → Option (String × List Param)
  | Req.sql q a _ => some (q, a)
  | _ => none

/-- Action against the connection demanded by a request or recorded by an
event: a statement execution or a commit. -/
inductive Act where
  | stmt : String → List Param → Act
  | com : Act
deriving DecidableEq

/-- Action a request asks for (`none` for the close sentinel). -/
def reqAct : Req → Option Act
  | Req.sql q a _ => some (Act.stmt q a)
  | Req.commit => some Act.com
  | Req.close => none

/-- Action an event records (`none` for sink fills and the final close). -/
def evAct {ρ : Type} : Ev ρ → Option Act
  | Ev.exec q a => some (Act.stmt q a)
  | Ev.commit => some Act.com
  | _ => none

/-- Trace of connection actions in an event list, in order. -/
def actTrace {ρ : Type} (evs : List (Ev ρ)) : List Act :=
  evs.filterMap evAct

/-- Concrete engine used to evaluate the model at specific inputs: the state
counts commits and executions, no rows are produced. -/
def engNat : Engine Nat Nat where
  exec := fun _ _ s => (s + 1, [])
  commit := fun s => s + 1

example : runWorker engNat false [Req.close] 5 = (5, [Ev.closeConn]) := by decide
example : drain (sinkFill ([] : List Nat)) = some [] := by decide
example : loads (dumps (Value.vint (-3))) = some (Value.vint (-3)) := by decide
example : loads (dumps (Value.vstr [7, 8])) = some (Value.vstr [7, 8]) := by decide

/-- Stored table: the rows of `tablename` (`key TEXT PRIMARY KEY, value BLOB`),
as an association list in row order. -/
abbrev Table := List (String × Blob)

/-- Primary-key invariant of the table schema: keys are unique. -/
def keysNodup (t : Table) : Prop := (t.map Prod.fst).Nodup

/-- Rows returned by the `GET_ITEM` query of `__getitem__`
(`SELECT value FROM tbl WHERE key = ?`): the value column of every row whose
key matches, in row order. -/
def pointSelect (t : Table) (k : String) : List Blob :=
  (t.filter (fun p => p.1 == k)).map Prod.snd

/-- `SqlDict.__getitem__`: `select_one` on the point query returns the first
row or `None`; on `None` a `KeyError` is raised (`Except.error ()`),
otherwise the blob is decoded. -/
def getItem (t : Table) (k : String) : Except Unit (Option Value) :=
  match (pointSelect t k).head? with
  | none => Except.error ()
  | some b => Except.ok (decode b)

/-- Rows returned by the `HAS_ITEM` query of `__contains__`
(`SELECT 1 FROM tbl WHERE key = ?`): the literal 1 for every matching row. -/
def hasItemSelect (t : Table) (k : String) : List Nat :=
  (t.filter (fun p => p.1 == k)).map (fun _ => 1)

/-- `SqlDict.__contains__`: `select_one(HAS_ITEM, (key,)) is not None`. -/
def containsKey (t : Table) (k : String) : Bool :=
  ((hasItemSelect t k).head?).isSome

/-- Effect of the `DEL_ITEM` statement (`DELETE FROM tbl WHERE key = ?`):
every row with a matching key is removed. -/
def deleteRows (t : Table) (k : String) : Table :=
  t.filter (fun p => !(p.1 == k))

/-- Statement text of `DEL_ITEM` with the table name interpolated. -/
def delStmt (tbl : String) : String := "DELETE FROM " ++ tbl ++ " WHERE key = ?"

/-- Outcome of one facade operation: the table after the operation, whether a
`KeyError` was raised, and the statements (text and bound parameters) the
operation submitted to the executor. -/
structure OpResult where
  table : Table
  raised : Bool
  submitted : List (String × List String)
deriving DecidableEq

/-- `SqlDict.__delitem__`: `if key not in self: raise KeyError(key)`, and only
otherwise `execute(DEL_ITEM, (key,))`. -/
def delItem (tbl : String) (t : Table) (k : String) : OpResult :=
  if containsKey t k then
    { table := deleteRows t k, raised := false, submitted := [(delStmt tbl, [k])] }
  else
    { table := t, raised := true, submitted := [] }

/-- Effect of the `ADD_ITEM` statement of `__setitem__`
(`REPLACE INTO tbl (key, value) VALUES (?,?)`): a conflicting row is deleted
and the new row inserted with a fresh rowid (appended). -/
def replaceInto (t : Table) (k : String) (b : Blob) : Table :=
  t.filter (fun p => !(p.1 == k)) ++ [(k, b)]

/-- `SqlDict.__setitem__`: submit `REPLACE INTO` with the key and the encoded
value. -/
def setItem (t : Table) (k : String) (v : Value) : Table :=
  replaceInto t k (encode v)

/-- Effect of the `CLEAR_ALL` statement of `clear` (`DELETE FROM tbl;`):
every row is removed.  (`clear` also commits before and after; commits do not
change the row set.) -/
def clearTable (_ : Table) : Table := []

/-- Rows returned by the `GET_LEN` query of `__len__`
(`SELECT COUNT(*) FROM tbl`): the aggregate always yields exactly one row,
holding the row count. -/
def countRows (t : Table) : List (List Nat) := [[t.length]]

/-- `SqlDict.__len__`: `select_one(GET_LEN)[0]`.  The `none` branch is
unreachable because the aggregate always returns one row. -/
def lenDict (t : Table) : Nat :=
  match (countRows t).head? with
  | some row => row.headI
  | none => 0

/-- Rows returned by the `MAX(ROWID)` query of `__bool__`
(`SELECT MAX(ROWID) FROM tbl`): the aggregate always yields exactly one row,
whose single cell is NULL (`none`) when the table is empty and the maximal
rowid otherwise (the model stands in `t.length` for that rowid; only its
presence matters). -/
def maxRowidRows (t : Table) : List (Option Nat) :=
  [if t.isEmpty then none else some t.length]

/-- `SqlDict.__bool__`: `select_one(GET_LEN) is not None` where `GET_LEN` is
the `MAX(ROWID)` query — true iff `select_one` returns a row at all. -/
def boolProbe (t : Table) : Bool :=
  ((maxRowidRows t).head?).isSome

/-- State of the `SqlDict` facade handle: `conn` is the `SqliteMultithread`
reference (`none` after `close` set it to `None`), `sent` the requests this
handle has enqueued so far. -/
structure DictHandle where
  conn : Option Unit
  sent : List Req
deriving DecidableEq

/-- `SqlDict.commit`: `if self.conn is not None: self.conn.commit()` — the
executor's `commit` enqueues the `'--commit--'` sentinel. -/
def facadeCommit (h : DictHandle) : DictHandle :=
  match h.conn with
  | some _ => { h with sent := h.sent ++ [Req.commit] }
  | none => h

/-- `SqlDict.close`: `if self.conn is not None: self.conn.commit();
self.conn.close(); self.conn = None` — enqueues the `'--commit--'` sentinel,
then the `'--close--'` sentinel, and drops the handle. -/
def facadeClose (h : DictHandle) : DictHandle :=
  match h.conn with
  | some _ => { conn := none, sent := h.sent ++ [Req.commit, Req.close] }
  | none => h

example : getItem [("a", encode (Value.vint 4))] "a" =
    Except.ok (some (Value.vint 4)) := rfl
example : getItem [] "a" = Except.error () := rfl
example : delItem "shelf" [] "a" = ⟨[], true, []⟩ := by decide
example : boolProbe (clearTable [("a", [0])]) = true := by decide
example : lenDict (clearTable [("a", [0])]) = 0 := by decide
example : facadeClose (facadeClose ⟨some (), []⟩) = ⟨none, [Req.commit, Req.close]⟩ := by decide

/-! Helper lemmas shared by the claim theorems. -/

/-- Round trip of the modelled codec primitives. -/
theorem loads_dumps (v : Value) : loads (dumps v) = some v := by
  cases v with
  | vstr s => rfl
  | vint n =>
    by_cases h : n < 0
    · simp only [dumps, if_pos h]
      have hl : loads [1, 1, n.natAbs] = some (Value.vint (-(n.natAbs : Int))) := rfl
      rw [hl, Option.some.injEq, Value.vint.injEq]
      omega
    · simp only [dumps, if_neg h]
      have hl : loads [1, 0, n.natAbs] = some (Value.vint (n.natAbs : Int)) := rfl
      rw [hl, Option.some.injEq, Value.vint.injEq]
      omega

/-- Consuming a sink the worker filled yields exactly the pushed rows: the
sentinel is reached after finitely many rows, whatever the row count. -/
theorem drain_sinkFill {ρ : Type} (rows : List ρ) :
    drain (sinkFill rows) = some rows := by
  induction rows with
  | nil => rfl
  | cons r rest ih =>
    show (drain (sinkFill rest)).map (fun l => r :: l) = some (r :: rest)
    rw [ih]
    rfl

/-- Point query returns no row exactly when no row of the table has the key. -/
theorem pointSelect_eq_nil_iff (t : Table) (k : String) :
    pointSelect t k = [] ↔ ∀ b, (k, b) ∉ t := by
  unfold pointSelect
  rw [List.map_eq_nil_iff, List.filter_eq_nil_iff]
  constructor
  · intro h b hb
    exact absurd (by simp : (((k, b) : String × Blob).1 == k) = true) (h (k, b) hb)
  · intro h p hp hk
    have hk' : p.1 = k := by simpa using hk
    exact h p.2 (by rw [← hk']; exact hp)

/-- Point query on a key outside the table's key column returns no row. -/
theorem pointSelect_eq_nil_of_not_mem_keys (t : Table) (k : String)
    (h : k ∉ t.map Prod.fst) : pointSelect t k = [] := by
  refine (pointSelect_eq_nil_iff t k).mpr (fun b hb => ?_)
  exact h (List.mem_map.mpr ⟨(k, b), hb, rfl⟩)

/-- Under the primary-key invariant, the point query for a present key
returns exactly its stored value. -/
theorem pointSelect_of_mem (t : Table) (k : String) (b : Blob)
    (hnd : keysNodup t) (hb : (k, b) ∈ t) : pointSelect t k = [b] := by
  induction t with
  | nil => cases hb
  | cons p rest ih =>
    have hnd' := hnd
    rw [keysNodup, List.map_cons, List.nodup_cons] at hnd'
    rcases List.mem_cons.mp hb with h | h
    · subst h
      show pointSelect ((k, b) :: rest) k = [b]
      have hrest : pointSelect rest k = [] :=
        pointSelect_eq_nil_of_not_mem_keys rest k hnd'.1
      unfold pointSelect at hrest ⊢
      simp [List.filter_cons, hrest]
    · have hpk : ¬(p.1 == k) = true := by
        simp only [beq_iff_eq]
        intro he
        exact hnd'.1 (he ▸ List.mem_map.mpr ⟨(k, b), h, rfl⟩)
      unfold pointSelect
      rw [List.filter_cons, if_neg hpk]
      exact ih hnd'.2 h

/-- Contains is existence of a row with the key. -/
theorem containsKey_iff (t : Table) (k : String) :
    containsKey t k = true ↔ ∃ b, (k, b) ∈ t := by
  unfold containsKey hasItemSelect
  rw [Option.isSome_iff_ne_none, ne_eq, List.head?_eq_none_iff,
    List.map_eq_nil_iff, List.filter_eq_nil_iff]
  constructor
  · intro h
    by_contra hc
    push_neg at hc
    exact h (fun p hp hk => hc p.2 (by
      have hk' : p.1 = k := by simpa using hk
      rw [← hk']
      exact hp))
  · rintro ⟨b, hb⟩ h
    exact absurd (by simp : (((k, b) : String × Blob).1 == k) = true) (h (k, b) hb)

@[simp]
theorem execTrace_nil {ρ : Type} : execTrace ([] : List (Ev ρ)) = [] := rfl

@[simp]
theorem execTrace_cons_exec {ρ : Type} (q : String) (a : List Param)
    (l : List (Ev ρ)) : execTrace (Ev.exec q a :: l) = (q, a) :: execTrace l := rfl

@[simp]
theorem execTrace_cons_sink {ρ : Type} (items : List (SinkItem ρ))
    (l : List (Ev ρ)) : execTrace (Ev.sink items :: l) = execTrace l := rfl

@[simp]
theorem execTrace_cons_commit {ρ : Type} (l : List (Ev ρ)) :
    execTrace (Ev.commit :: l) = execTrace l := rfl

@[simp]
theorem execTrace_cons_closeConn {ρ : Type} (l : List (Ev ρ)) :
    execTrace (Ev.closeConn :: l) = execTrace l := rfl

@[simp]
theorem execTrace_append {ρ : Type} (l₁ l₂ : List (Ev ρ)) :
    execTrace (l₁ ++ l₂) = execTrace l₁ ++ execTrace l₂ :=
  List.filterMap_append l₁ l₂ _

@[simp]
theorem actTrace_nil {ρ : Type} : actTrace ([] : List (Ev ρ)) = [] := rfl

@[simp]
theorem actTrace_cons_exec {ρ : Type} (q : String) (a : List Param)
    (l : List (Ev ρ)) :
    actTrace (Ev.exec q a :: l) = Act.stmt q a :: actTrace l := rfl

@[simp]
theorem actTrace_cons_sink {ρ : Type} (items : List (SinkItem ρ))
    (l : List (Ev ρ)) : actTrace (Ev.sink items :: l) = actTrace l := rfl

@[simp]
theorem actTrace_cons_commit {ρ : Type} (l : List (Ev ρ)) :
    actTrace (Ev.commit :: l) = Act.com :: actTrace l := rfl

@[simp]
theorem actTrace_cons_closeConn {ρ : Type} (l : List (Ev ρ)) :
    actTrace (Ev.closeConn :: l) = actTrace l := rfl

@[simp]
theorem actTrace_append {ρ : Type} (l₁ l₂ : List (Ev ρ)) :
    actTrace (l₁ ++ l₂) = actTrace l₁ ++ actTrace l₂ :=
  List.filterMap_append l₁ l₂ _

/-- Statements executed by the worker are exactly the statement requests of
the RUNNING prefix of the queue (everything before the first close sentinel),
in enqueue order. -/
theorem execTrace_runWorker {σ ρ : Type} (E : Engine σ ρ) (auto : Bool)
    (reqs : List Req) (s : σ) :
    execTrace (runWorker E auto reqs s).2 =
      (reqs.takeWhile (fun r => !r.isClose)).filterMap sqlOf := by
  induction reqs generalizing s with
  | nil => rfl
  | cons r rest ih =>
    cases r with
    | close => simp [runWorker, List.takeWhile_cons, Req.isClose]
    | commit =>
      simp [runWorker, List.takeWhile_cons, Req.isClose, sqlOf,
        List.filterMap_cons, ih]
    | sql q a withSink =>
      cases withSink <;> cases auto <;>
        simp [runWorker, List.takeWhile_cons, Req.isClose, sqlOf,
          List.filterMap_cons, ih]

/-- With autocommit off, the worker's connection actions (statement
executions and commits) are exactly the actions requested in the RUNNING
prefix of the queue, in enqueue order. -/
theorem actTrace_runWorker {σ ρ : Type} (E : Engine σ ρ)
    (reqs : List Req) (s : σ) :
    actTrace (runWorker E false reqs s).2 =
      (reqs.takeWhile (fun r => !r.isClose)).filterMap reqAct := by
  induction reqs generalizing s with
  | nil => rfl
  | cons r rest ih =>
    cases r with
    | close => simp [runWorker, List.takeWhile_cons, Req.isClose]
    | commit =>
      simp [runWorker, List.takeWhile_cons, Req.isClose, reqAct,
        List.filterMap_cons, ih]
    | sql q a withSink =>
      cases withSink <;>
        simp [runWorker, List.takeWhile_cons, Req.isClose, reqAct,
          List.filterMap_cons, ih]

/-- Point query on a table right after `REPLACE INTO` for the same key
returns exactly the new value. -/
theorem pointSelect_replaceInto_self (t : Table) (k : String) (b : Blob) :
    pointSelect (replaceInto t k b) k = [b] := by
  unfold pointSelect replaceInto
  rw [List.filter_append]
  have h1 : (t.filter (fun p => !(p.1 == k))).filter (fun p => p.1 == k) = [] := by
    refine List.filter_eq_nil_iff.mpr (fun p hp => ?_)
    have h2 := (List.mem_filter.mp hp).2
    simp only [Bool.not_eq_true'] at h2
    simp [h2]
  rw [h1]
  simp

/-! Claim theorems. -/

/-- Claim C1: the worker dequeues and executes requests in exactly the order
they were enqueued.  The executed-statement trace of the worker equals the
statement requests in the RUNNING prefix of the queue (before the first
close sentinel), in enqueue order — none skipped, reordered or batched; with
autocommit off, the full connection-action trace (statements and commits)
likewise equals the requested actions in queue order. -/
theorem c1_fifo_execution_order {σ ρ : Type} (E : Engine σ ρ) (auto : Bool)
    (reqs : List Req) (s : σ) :
    execTrace (runWorker E auto reqs s).2 =
      (reqs.takeWhile (fun r => !r.isClose)).filterMap sqlOf ∧
    actTrace (runWorker E false reqs s).2 =
      (reqs.takeWhile (fun r => !r.isClose)).filterMap reqAct :=
  ⟨execTrace_runWorker E auto reqs s, actTrace_runWorker E reqs s⟩

/-- Claim C2: on a query request with a result sink, the worker pushes every
produced row into the sink in engine-returned order and then the terminal
sentinel (also when zero rows are produced, since the pushed contents are
`sinkFill` of the engine's row list, whatever it is); consequently the
`select` consumption loop terminates, returning exactly the pushed rows. -/
theorem c2_sink_rows_then_sentinel {σ ρ : Type} (E : Engine σ ρ) (auto : Bool)
    (q : String) (a : List Param) (rest : List Req) (s : σ) :
    (∃ tail, (runWorker E auto (Req.sql q a true :: rest) s).2 =
        Ev.exec q a :: Ev.sink (sinkFill (E.exec q a s).2) :: tail) ∧
    ∀ rows : List ρ, drain (sinkFill rows) = some rows := by
  constructor
  · refine ⟨(if auto then [Ev.commit] else []) ++
      (runWorker E auto rest
        (if auto then E.commit (E.exec q a s).1 else (E.exec q a s).1)).2, ?_⟩
    simp [runWorker]
  · exact drain_sinkFill

/-- Claim C3, counterexample: dequeuing the close sentinel does not commit.
With just the close sentinel in the queue, the worker's trace is exactly the
connection closing — no commit event occurs and the engine state (which the
concrete engine bumps on every commit) is returned untouched. -/
theorem c3_close_no_commit_counterexample :
    (runWorker engNat false [Req.close] 5).2 = [Ev.closeConn] ∧
    Ev.commit ∉ (runWorker engNat false [Req.close] 5).2 ∧
    (runWorker engNat false [Req.close] 5).1 = 5 := by
  decide

/-- Claim C3 (amended): when the worker dequeues the close sentinel it closes
the connection and terminates its loop immediately — no statement execution
and no commit by the worker itself (the engine state is returned unchanged);
the commit that precedes closing is enqueued separately by the facade:
`SqlDict.close` on a live handle enqueues the commit sentinel and then the
close sentinel. -/
theorem c3_close_then_terminate_amended {σ ρ : Type} (E : Engine σ ρ)
    (auto : Bool) (rest : List Req) (s : σ) :
    runWorker E auto (Req.close :: rest) s = (s, [Ev.closeConn]) ∧
    ∀ h : DictHandle, h.conn = some () →
      (facadeClose h).sent = h.sent ++ [Req.commit, Req.close] := by
  refine ⟨rfl, fun h hc => ?_⟩
  simp [facadeClose, hc]

/-- Witness for the amended C3 theorem at a concrete engine and handle. -/
theorem c3_close_then_terminate_amended_witness :
    runWorker engNat false [Req.close] 0 = (0, [Ev.closeConn]) ∧
    (facadeClose ⟨some (), []⟩).sent = [Req.commit, Req.close] :=
  ⟨(c3_close_then_terminate_amended engNat false [] 0).1,
    (c3_close_then_terminate_amended engNat false [] 0).2 ⟨some (), []⟩ rfl⟩

/-- Claim C4: STOPPED is terminal.  The worker's entire behaviour — final
engine state and full event trace — on a queue containing the close sentinel
is independent of everything queued after the first close sentinel, so
requests behind it (already queued or enqueued later by racing producers)
are never executed. -/
theorem c4_stopped_terminal {σ ρ : Type} (E : Engine σ ρ) (auto : Bool)
    (pre post : List Req) (s : σ) :
    runWorker E auto (pre ++ Req.close :: post) s =
      runWorker E auto (pre ++ [Req.close]) s := by
  induction pre generalizing s with
  | nil => rfl
  | cons r pre ih =>
    cases r with
    | close => rfl
    | commit =>
      have ih2 : ∀ s₁ : σ, runWorker E auto (pre.append (Req.close :: post)) s₁ =
          runWorker E auto (pre.append [Req.close]) s₁ := ih
      simp only [List.cons_append, runWorker]
      rw [ih2]
    | sql q a withSink =>
      have ih2 : ∀ s₁ : σ, runWorker E auto (pre.append (Req.close :: post)) s₁ =
          runWorker E auto (pre.append [Req.close]) s₁ := ih
      simp only [List.cons_append, runWorker]
      rw [ih2]

/-- Claim C5: `__getitem__` raises `KeyError` exactly when the point query
returns no row, which happens exactly when no row of the table has the key;
and under the primary-key invariant, a present key yields its decoded stored
value. -/
theorem c5_getitem_missing_key (t : Table) (k : String) :
    (getItem t k = Except.error () ↔ pointSelect t k = []) ∧
    (pointSelect t k = [] ↔ ∀ b, (k, b) ∉ t) ∧
    (keysNodup t → ∀ b, (k, b) ∈ t → getItem t k = Except.ok (decode b)) := by
  refine ⟨?_, pointSelect_eq_nil_iff t k, fun hnd b hb => ?_⟩
  · cases hh : (pointSelect t k).head? with
    | none =>
      have hnil : pointSelect t k = [] := List.head?_eq_none_iff.mp hh
      simp [getItem, hh, hnil]
    | some b =>
      have hne : pointSelect t k ≠ [] := by
        intro hnil
        rw [hnil] at hh
        cases hh
      simp [getItem, hh, hne]
  · unfold getItem
    rw [pointSelect_of_mem t k b hnd hb]
    rfl

/-- Witness for C5 at a concrete singleton table. -/
theorem c5_getitem_missing_key_witness :
    getItem [("a", [0])] "a" = Except.ok (decode [0]) :=
  (c5_getitem_missing_key [("a", [0])] "a").2.2
    (by simp [keysNodup]) [0] (by simp)

/-- Claim C6: `__delitem__` on an absent key raises `KeyError`, submits no
statement and leaves the table unchanged; only on a present key does it
submit the delete statement (and not raise). -/
theorem c6_delitem_absent_key (tbl : String) (t : Table) (k : String) :
    ((∀ b, (k, b) ∉ t) →
      delItem tbl t k = { table := t, raised := true, submitted := [] }) ∧
    (∀ b, (k, b) ∈ t →
      delItem tbl t k =
        { table := deleteRows t k, raised := false,
          submitted := [(delStmt tbl, [k])] }) := by
  constructor
  · intro h
    have hc : ¬containsKey t k = true := fun hc => by
      obtain ⟨b, hb⟩ := (containsKey_iff t k).mp hc
      exact h b hb
    simp [delItem, hc]
  · intro b hb
    have hc : containsKey t k = true := (containsKey_iff t k).mpr ⟨b, hb⟩
    simp [delItem, hc]

/-- Witness for C6 at the empty table. -/
theorem c6_delitem_absent_key_witness :
    delItem "shelf" [] "k" = { table := [], raised := true, submitted := [] } :=
  (c6_delitem_absent_key "shelf" [] "k").1 (fun _ => List.not_mem_nil _)

/-- Claim C7: last-write-wins.  Setting the same key twice and then reading
it returns the second value: the `REPLACE INTO` write overwrites the prior
row instead of erroring or keeping the old value, and the decoded result is
the value just stored. -/
theorem c7_last_write_wins (t : Table) (k : String) (v1 v2 : Value) :
    getItem (setItem (setItem t k v1) k v2) k = Except.ok (some v2) := by
  unfold getItem setItem
  rw [pointSelect_replaceInto_self]
  show Except.ok (decode (encode v2)) = Except.ok (some v2)
  rw [show decode (encode v2) = loads (dumps v2) from rfl, loads_dumps]

/-- Claim C8, evaluated at the failing input: after `clear` the length query
does return 0, but the non-empty probe of `__bool__` — `SELECT MAX(ROWID)`
checked with `select_one(...) is not None` — still reports the mapping as
non-empty (`true`), because the aggregate returns one row (with a NULL cell)
even on the empty table.  This contradicts the claim and the module's own
self-test (`assert not d` immediately after `d.clear()`). -/
theorem c8_clear_length_and_probe (t : Table) :
    lenDict (clearTable t) = 0 ∧ boolProbe (clearTable t) = true :=
  ⟨rfl, rfl⟩

/-- Claim C9: codec round trip — decoding an encoded value returns the value,
for every value in the codec's modelled domain. -/
theorem c9_codec_round_trip (v : Value) : decode (encode v) = some v :=
  loads_dumps v

/-- Claim C10: the facade's `close` is idempotent.  After any `close` the
connection reference is `None`; a second `close` or a `commit` on the closed
facade is a no-op that enqueues nothing; and the first `close` on a live
handle enqueues exactly the commit sentinel followed by the close sentinel
while clearing the connection reference. -/
theorem c10_facade_close_idempotent (h : DictHandle) :
    (facadeClose h).conn = none ∧
    facadeClose (facadeClose h) = facadeClose h ∧
    facadeCommit (facadeClose h) = facadeClose h ∧
    (h.conn = some () → facadeClose h =
      { conn := none, sent := h.sent ++ [Req.commit, Req.close] }) := by
  obtain ⟨c, sent⟩ := h
  cases c with
  | none => exact ⟨rfl, rfl, rfl, fun hc => by cases hc⟩
  | some u =>
    cases u
    exact ⟨rfl, rfl, rfl, fun _ => rfl⟩

/-- Witness for C10 at a concrete live handle. -/
theorem c10_facade_close_idempotent_witness :
    facadeClose ⟨some (), []⟩ =
      { conn := none, sent := [Req.commit, Req.close] } :=
  (c10_facade_close_idempotent ⟨some (), []⟩).2.2.2 rfl
